import Mathlib

/-!
Shallow embedding of 494Project1.py: a differentiable rocket-landing
simulator (Dynamics), a neural controller (Controller), a rollout loop
(Simulation) and an optimizer driver (Optimize).  Machine floats are
idealised as rationals (reals for the controller nonlinearities); the
transcendental functions sin and cos appearing in the thrust direction are
passed as explicit function parameters so that every statement quantifies
over them.
-/

/- ## Module-level environment parameters (source lines 19-21, 198-201) -/

def FRAME_TIME : ℚ := 1.0

def GRAVITY_ACCEL : ℚ := -9.81 / 1000

def BOOST_ACCEL : ℚ := 14.715 / 1000

def T : ℕ := 20

def dim_input : ℕ := 5

def dim_hidden : ℕ := 6

def dim_output : ℕ := 1

/- ## Small vector and matrix helpers over lists of rationals -/

/-- Elementwise sum of two equally long vectors, as done by tensor addition. -/
def addList (a b : List ℚ) : List ℚ := List.zipWith (fun x y => x + y) a b

/-- Matrix-vector product, the semantics of t.matmul applied to a
five-component state vector. -/
def matVec (A : List (List ℚ)) (v : List ℚ) : List ℚ :=
  A.map (fun row => (List.zipWith (fun x y => x * y) row v).sum)

/-- The constant kinematic integration matrix of source lines 83-87. -/
def step_mat : List (List ℚ) :=
  [[1, FRAME_TIME, 0, 0, 0],
   [0, 1, 0, 0, 0],
   [0, 0, 1, FRAME_TIME, 0],
   [0, 0, 0, 1, 0],
   [0, 0, 0, 0, 1]]

/-- The drag coefficient of source lines 73-76: coeff is the drag
coefficient, p the air density, A the cross-sectional area. -/
def drag : ℚ :=
  let coeff : ℚ := 0.75
  let p : ℚ := 1.29
  let A : ℚ := 10.75
  (-0.5) * coeff * p * A

/- ## Dynamics (source lines 40-89), per-vector semantics

The state is the five-vector x, vx, y, vy, theta and the action is the
two-vector thrust, turn that Dynamics.forward consumes (action components
0 and 1 at source lines 64 and 67). -/

/-- The intermediate state of source line 79: base state plus the thrust
increment, the gravity increment, the heading increment and the quadratic
drag term. -/
def Dynamics.updatedState (sin cos : ℚ → ℚ) (state action : List ℚ) : List ℚ :=
  let delta_state_gravity : List ℚ := [0, 0, 0, GRAVITY_ACCEL * FRAME_TIME, 0]
  let state_tensor : List ℚ := [0, -sin (state.getD 4 0), 0, cos (state.getD 4 0), 0]
  let delta_state : List ℚ :=
    state_tensor.map (fun y => BOOST_ACCEL * FRAME_TIME * (y * action.getD 0 0))
  let delta_state_theta : List ℚ :=
    [0, 0, 0, 0, -1].map (fun y => FRAME_TIME * (y * action.getD 1 0))
  let state_copy := state
  addList (addList (addList (addList state_copy delta_state) delta_state_gravity)
      delta_state_theta)
    (state_copy.map (fun y => drag * y ^ 2))

/-- One dynamics step (source lines 40-89): the intermediate state followed
by the constant-matrix kinematic integration of source line 88. -/
def Dynamics.forward (sin cos : ℚ → ℚ) (state action : List ℚ) : List ℚ :=
  matVec step_mat (Dynamics.updatedState sin cos state action)

/- ## Simulation (source lines 126-153) -/

/-- The fixed initial state of source lines 147-150. -/
def Simulation.initialize_state : List ℚ := [0, 0, 1, 0, 0]

/-- The terminal loss of source lines 152-153. -/
def Simulation.error (state : List ℚ) : ℚ :=
  (state.getD 0 0) ^ 2 + (state.getD 1 0) ^ 2

/-- The rollout loop body of source lines 140-144: at each step the
controller produces an action from the current state, the dynamics produce
the next state, and both are recorded.  Returns the action trajectory, the
state trajectory and the final state. -/
def rolloutLoop (sin cos : ℚ → ℚ) (ctrl : List ℚ → List ℚ) :
    ℕ → List ℚ → List (List ℚ) × List (List ℚ) × List ℚ
  | 0, state => ([], [], state)
  | n + 1, state =>
    let action := ctrl state
    let state1 := Dynamics.forward sin cos state action
    let rest := rolloutLoop sin cos ctrl n state1
    (action :: rest.1, state1 :: rest.2.1, rest.2.2)

/-- The iteration count read by the rollout loop at source line 140: the
loop runs over range of the module-level constant T, not over the T stored
on the instance. -/
def rolloutStepCount : ℕ := T

/-- A Simulation instance stores the constructor argument T
(source lines 128-135). -/
structure Simulation where
  T : ℕ

/-- Simulation.forward (source lines 137-145): the trajectories are reset,
the loop runs over range of the module-level constant T (source line 140),
and the loss of the final state is returned, together with the freshly
recorded action and state trajectories. -/
def Simulation.forward (sim : Simulation) (sin cos : ℚ → ℚ)
    (ctrl : List ℚ → List ℚ) (state : List ℚ) :
    ℚ × List (List ℚ) × List (List ℚ) :=
  let r := rolloutLoop sin cos ctrl rolloutStepCount state
  (Simulation.error r.2.2, r.1, r.2.1)

/- ## Optimize (source lines 167-193) -/

/-- Optimize.visualize (source lines 188-193) reads the trajectory entries
at indices 0 to self.simulation.T - 1. -/
def Optimize.visualize (sim : Simulation) (state_trajectory : List (List ℚ)) :
    List (Option (List ℚ)) :=
  (List.range sim.T).map (fun i => state_trajectory.get? i)

/-- Optimize.step (source lines 174-181).  The LBFGS update is abstracted
as a function lbfgs that receives the re-invocable closure and the current
parameters and returns the updated parameters together with the list of
parameter values at which it invoked the closure internally.  After the
update completes, the closure is invoked once more at the updated
parameters (source line 181) and its value is returned; the simulator is
left holding that final rollout.  The result is the returned rollout
(loss, actions, states), the updated parameters, and the full list of
parameter values at which the closure was invoked. -/
def Optimize.step {P : Type}
    (lbfgs : (P → ℚ × List (List ℚ) × List (List ℚ)) → P → P × List P)
    (sin cos : ℚ → ℚ) (ctrl : P → List ℚ → List ℚ) (sim : Simulation) (p : P) :
    (ℚ × List (List ℚ) × List (List ℚ)) × P × List P :=
  let closure := fun q => sim.forward sin cos (ctrl q) Simulation.initialize_state
  let upd := lbfgs closure p
  (closure upd.1, upd.1, upd.2 ++ [upd.1])

/- ## Shape-checked tensor semantics of Dynamics.forward

The program constructs a one-dimensional initial state (source line 150)
and a controller with a single output channel (source line 201), while
Dynamics.forward indexes the state as a two-dimensional tensor
(source lines 61-62) and reads a second action column (source line 67).
This model keeps PyTorch shapes explicit: an out-of-range index or an
impossible broadcast is an error value, exactly where the interpreter
raises. -/

/-- A one- or two-dimensional tensor of rationals. -/
inductive TVal where
  | vec : List ℚ → TVal
  | mat : List (List ℚ) → TVal
deriving DecidableEq

/-- The Python len of a tensor: its first dimension. -/
def TVal.len : TVal → ℕ
  | .vec l => l.length
  | .mat rows => rows.length

/-- Column indexing tv of colon comma j: fails on a one-dimensional tensor
(too many indices) and when j is out of range. -/
def TVal.col (tv : TVal) (j : ℕ) : Option (List ℚ) :=
  match tv with
  | .vec _ => none
  | .mat rows => rows.mapM (fun r => r.get? j)

/-- The rows of a two-dimensional tensor. -/
def TVal.rows : TVal → Option (List (List ℚ))
  | .vec _ => none
  | .mat rows => some rows

/-- A zero matrix, as produced by t.zeros. -/
def zerosMat (n m : ℕ) : List (List ℚ) :=
  List.replicate n (List.replicate m 0)

/-- Writing a column of a matrix in place, the semantics of the
assignments at source lines 61-62. -/
def setCol (rows : List (List ℚ)) (j : ℕ) (c : List ℚ) : List (List ℚ) :=
  List.zipWith (fun r x => r.set j x) rows c

/-- Elementwise product of an n by m matrix with an n by 1 column under
PyTorch broadcasting: the column length must equal the row count, or one
of the two first dimensions must be 1. -/
def scaleRows (rows : List (List ℚ)) (c : List ℚ) : Option (List (List ℚ)) :=
  if c.length = rows.length then
    some (List.zipWith (fun r x => r.map (fun y => y * x)) rows c)
  else if c.length = 1 then
    some (rows.map (fun r => r.map (fun y => y * c.getD 0 0)))
  else if rows.length = 1 then
    some (c.map (fun x => (rows.getD 0 []).map (fun y => y * x)))
  else none

/-- Elementwise product of a length-m vector with a k by 1 column under
PyTorch broadcasting: the result is k by m. -/
def rowBroadcastMul (v : List ℚ) (c : List ℚ) : List (List ℚ) :=
  c.map (fun x => v.map (fun y => y * x))

/-- Addition of two matrices of identical shape; PyTorch raises on any
other non-broadcast combination appearing in the dynamics. -/
def addMat (a b : List (List ℚ)) : Option (List (List ℚ)) :=
  if a.length = b.length ∧ (List.zip a b).all (fun r => r.1.length = r.2.length) then
    some (List.zipWith (fun r s => List.zipWith (fun x y => x + y) r s) a b)
  else none

/-- Addition of an n by m matrix and a length-m vector, broadcast over
rows. -/
def addMatVec (a : List (List ℚ)) (v : List ℚ) : Option (List (List ℚ)) :=
  if a.all (fun r => r.length = v.length) then
    some (a.map (fun r => List.zipWith (fun x y => x + y) r v))
  else none

/-- t.matmul of a p by q matrix and a q by m matrix, with the shape check
PyTorch performs. -/
def matmulChecked (A B : List (List ℚ)) : Option (List (List ℚ)) :=
  let m := (B.getD 0 []).length
  if (A.all (fun r => r.length = B.length)) ∧ (B.all (fun r => r.length = m)) then
    some (A.map (fun ar =>
      (List.range m).map (fun j =>
        (List.zipWith (fun x br => x * br.getD j 0) ar B).sum)))
  else none

/-- Dynamics.forward (source lines 40-89) with explicit PyTorch shapes:
everything as in the per-vector model, but each tensor indexing and each
broadcast carries its failure condition.  Execution order follows the
source: the state column reads at lines 61-62, the first action column at
line 64, the second action column at line 67, the additions at line 79 and
the matmul at line 88. -/
def Dynamics.forwardChecked (sin cos : ℚ → ℚ) (state action : TVal) : Option TVal := do
  let N := state.len
  let thetaCol ← state.col 4
  let state_tensor := setCol (setCol (zerosMat N 5) 1 (thetaCol.map (fun x => -sin x)))
    3 (thetaCol.map cos)
  let thrustCol ← action.col 0
  let ds ← scaleRows state_tensor thrustCol
  let delta_state := ds.map (fun r => r.map (fun y => BOOST_ACCEL * FRAME_TIME * y))
  let turnCol ← action.col 1
  let delta_state_theta :=
    (rowBroadcastMul [0, 0, 0, 0, -1] turnCol).map (fun r => r.map (fun y => FRAME_TIME * y))
  let srows ← state.rows
  let s1 ← addMat srows delta_state
  let s2 ← addMatVec s1 [0, 0, 0, GRAVITY_ACCEL * FRAME_TIME, 0]
  let s3 ← addMat s2 delta_state_theta
  let s4 ← addMat s3 (srows.map (fun r => r.map (fun y => drag * y ^ 2)))
  let res ← matmulChecked step_mat s4
  return TVal.mat res

/- ## The zero-action free dynamics of the specification -/

/-- A controller that always outputs zero thrust and zero turn. -/
def zeroController : List ℚ → List ℚ := fun _ => [0, 0]

/-- Modelled from the spec: one step of pure gravity, uniform quadratic
drag and constant-matrix kinematics, with no thrust increment and no
heading change, as the specification describes the zero-action dynamics. -/
def freeStep (state : List ℚ) : List ℚ :=
  matVec step_mat
    (addList (addList state [0, 0, 0, GRAVITY_ACCEL * FRAME_TIME, 0])
      (state.map (fun y => drag * y ^ 2)))

/-- Modelled from the spec: the state sequence obtained by iterating the
free step n times and recording each successive state. -/
def freeTraj : ℕ → List ℚ → List (List ℚ)
  | 0, _ => []
  | n + 1, s =>
    let s1 := freeStep s
    s1 :: freeTraj n s1

/-- Modelled from the spec: the intermediate state of one dynamics step
with the drag contribution removed, that is base state plus thrust
increment plus gravity increment plus heading increment.  Compared against
Dynamics.updatedState to isolate what the drag term adds. -/
def updatedStateNoDrag (sin cos : ℚ → ℚ) (state action : List ℚ) : List ℚ :=
  let state_tensor : List ℚ := [0, -sin (state.getD 4 0), 0, cos (state.getD 4 0), 0]
  let delta_state : List ℚ :=
    state_tensor.map (fun y => BOOST_ACCEL * FRAME_TIME * (y * action.getD 0 0))
  let delta_state_theta : List ℚ :=
    [0, 0, 0, 0, -1].map (fun y => FRAME_TIME * (y * action.getD 1 0))
  addList (addList (addList state delta_state) [0, 0, 0, GRAVITY_ACCEL * FRAME_TIME, 0])
    delta_state_theta

/- ## Controller (source lines 98-117), real-valued semantics

The network is Linear, Tanh, Linear, Sigmoid; the Tanh and Sigmoid
nonlinearities are the genuine real functions, so these definitions live
over the reals. -/

/-- An affine layer, the semantics of nn.Linear. -/
structure Linear (dimIn dimOut : ℕ) where
  weight : Fin dimOut → Fin dimIn → ℝ
  bias : Fin dimOut → ℝ

/-- Applying an affine layer to an input vector. -/
noncomputable def Linear.apply {dimIn dimOut : ℕ} (layer : Linear dimIn dimOut)
    (x : Fin dimIn → ℝ) : Fin dimOut → ℝ :=
  fun i => (∑ j, layer.weight i j * x j) + layer.bias i

/-- The logistic sigmoid, the semantics of nn.Sigmoid. -/
noncomputable def sigmoid (x : ℝ) : ℝ := 1 / (1 + Real.exp (-x))

/-- Controller.forward (source lines 107-117): the first affine layer,
Tanh elementwise, the second affine layer, Sigmoid elementwise. -/
noncomputable def Controller.forward {dIn dHid dOut : ℕ}
    (layer1 : Linear dIn dHid) (layer2 : Linear dHid dOut)
    (state : Fin dIn → ℝ) : Fin dOut → ℝ :=
  fun i => sigmoid (layer2.apply (fun j => Real.tanh (layer1.apply state j)) i)

/- ## Dynamics.forward over an explicit tensor store

The source forbids in-place updates on the differentiated tensors
(source lines 30-33, 70): the only in-place writes in Dynamics.forward go
to the freshly allocated state_tensor (source lines 61-62), and the input
state and action objects are read, never written.  The store makes object
identity explicit: tensors live at addresses, t.zeros and every arithmetic
operator allocate fresh addresses, and the column assignments write in
place at the address of state_tensor. -/

/-- A store of allocated tensors; an address is an index into the list. -/
abbrev Mem := List (List ℚ)

/-- Reading the tensor at an address. -/
def Mem.read (m : Mem) (a : ℕ) : List ℚ := (m.get? a).getD []

/-- Allocating a fresh tensor, returning the new store and its address. -/
def Mem.alloc (m : Mem) (v : List ℚ) : Mem × ℕ := (m ++ [v], m.length)

/-- Writing one element of the tensor at an address, in place. -/
def Mem.writeAt (m : Mem) (a i : ℕ) (x : ℚ) : Mem :=
  m.set a ((Mem.read m a).set i x)

/-- Dynamics.forward (source lines 40-89) over the store: the input state
is read at source lines 61-62 and 70-79, the input action at source lines
64 and 67; t.tensor and t.zeros allocate, the two column assignments write
into the freshly allocated state_tensor, and every arithmetic combination
allocates its result.  Returns the final store and the address of the
returned state. -/
def Dynamics.forwardMem (sin cos : ℚ → ℚ) (m0 : Mem) (state action : ℕ) : Mem × ℕ :=
  let s := m0.read state
  let (m1, gAddr) := m0.alloc [0, 0, 0, GRAVITY_ACCEL * FRAME_TIME, 0]
  let (m2, stAddr) := m1.alloc (List.replicate 5 0)
  let m3 := m2.writeAt stAddr 1 (-sin (s.getD 4 0))
  let m4 := m3.writeAt stAddr 3 (cos (s.getD 4 0))
  let thrust := (m4.read action).getD 0 0
  let (m5, dsAddr) := m4.alloc
    ((m4.read stAddr).map (fun y => BOOST_ACCEL * FRAME_TIME * (y * thrust)))
  let turn := (m5.read action).getD 1 0
  let (m6, dthAddr) := m5.alloc
    ([0, 0, 0, 0, -1].map (fun y => FRAME_TIME * (y * turn)))
  let state_copy := m6.read state
  let (m7, s1Addr) := m6.alloc
    (addList (addList (addList (addList state_copy (m6.read dsAddr)) (m6.read gAddr))
        (m6.read dthAddr))
      (state_copy.map (fun y => drag * y ^ 2)))
  let (m8, resAddr) := m7.alloc (matVec step_mat (m7.read s1Addr))
  (m8, resAddr)

/- ## Store lemmas -/

theorem Mem.read_append_lt (m : Mem) (l : List (List ℚ)) (b : ℕ) (hb : b < m.length) :
    Mem.read (m ++ l) b = m.read b := by
  simp [Mem.read, List.getElem?_append_left hb]

theorem Mem.read_concat_length (m : Mem) (v : List ℚ) :
    Mem.read (m ++ [v]) m.length = v := by
  simp [Mem.read, List.getElem?_concat_length]

theorem Mem.read_writeAt_ne (m : Mem) (a i : ℕ) (x : ℚ) (b : ℕ) (h : a ≠ b) :
    (m.writeAt a i x).read b = m.read b := by
  simp [Mem.writeAt, Mem.read, List.getElem?_set_ne h]

theorem Mem.read_writeAt_self (m : Mem) (a i : ℕ) (x : ℚ) (ha : a < m.length) :
    (m.writeAt a i x).read a = (m.read a).set i x := by
  simp [Mem.writeAt, Mem.read, List.getElem?_set_self ha]

theorem Mem.length_writeAt (m : Mem) (a i : ℕ) (x : ℚ) :
    (m.writeAt a i x).length = m.length := by
  simp [Mem.writeAt]

theorem Mem.read_concat_eq (m : Mem) (v : List ℚ) (b : ℕ) (h : b = m.length) :
    Mem.read (m ++ [v]) b = v := by
  subst h; exact Mem.read_concat_length m v

theorem Mem.read_writeAt_eq (m : Mem) (a i : ℕ) (x : ℚ) (b : ℕ) (h : a = b)
    (h2 : a < m.length) : (m.writeAt a i x).read b = (m.read a).set i x := by
  subst h; exact Mem.read_writeAt_self m a i x h2

theorem Mem.read_append_right (m : Mem) (l : List (List ℚ)) (b : ℕ)
    (h : m.length ≤ b) : Mem.read (m ++ l) b = Mem.read l (b - m.length) := by
  simp [Mem.read, List.getElem?_append_right h]

theorem Mem.read_cons_zero (v : List ℚ) (l : Mem) : Mem.read (v :: l) 0 = v := rfl

/-- The store after a dynamics step holds six more tensors. -/
theorem Dynamics.forwardMem_length (sin cos : ℚ → ℚ) (m : Mem) (s a : ℕ) :
    ((Dynamics.forwardMem sin cos m s a).1).length = m.length + 6 := by
  simp [Dynamics.forwardMem, Mem.alloc, Mem.writeAt]

/-- The dynamics step never writes at an address that existed before the
call: every tensor of the incoming store, the input state and action
included, is intact afterwards. -/
theorem Dynamics.forwardMem_frame (sin cos : ℚ → ℚ) (m : Mem) (s a b : ℕ)
    (hb : b < m.length) :
    ((Dynamics.forwardMem sin cos m s a).1).read b = Mem.read m b := by
  have h1 : b < m.length + 1 := by omega
  have h2 : b < m.length + 1 + 1 := by omega
  have h3 : b < m.length + 1 + 1 + 1 := by omega
  have h4 : b < m.length + 1 + 1 + 1 + 1 := by omega
  have h5 : b < m.length + 1 + 1 + 1 + 1 + 1 := by omega
  have n1 : m.length + 1 ≠ b := by omega
  simp only [Dynamics.forwardMem, Mem.alloc, Mem.read_append_lt, Mem.read_writeAt_ne,
    Mem.length_writeAt, List.length_append, List.length_cons, List.length_nil,
    List.length_set, hb, h1, h2, h3, h4, h5, n1, ne_eq, not_false_eq_true]

/-- The value of the tensor the dynamics step returns is the per-vector
dynamics applied to the values stored at the input addresses. -/
theorem Dynamics.forwardMem_result (sin cos : ℚ → ℚ) (m : Mem) (s a : ℕ)
    (hs : s < m.length) (ha : a < m.length) :
    ((Dynamics.forwardMem sin cos m s a).1).read (Dynamics.forwardMem sin cos m s a).2
      = Dynamics.forward sin cos (m.read s) (m.read a) := by
  have hs1 : s < m.length + 1 := by omega
  have hs2 : s < m.length + 1 + 1 := by omega
  have hs3 : s < m.length + 1 + 1 + 1 := by omega
  have ha1 : a < m.length + 1 := by omega
  have ha2 : a < m.length + 1 + 1 := by omega
  have ha3 : a < m.length + 1 + 1 + 1 := by omega
  have ns : m.length + 1 ≠ s := by omega
  have na : m.length + 1 ≠ a := by omega
  have g1 : m.length < m.length + 1 := by omega
  have g2 : m.length < m.length + 1 + 1 := by omega
  have g3 : m.length < m.length + 1 + 1 + 1 := by omega
  have w1 : m.length + 1 < m.length + 1 + 1 := by omega
  have d1 : m.length + 1 + 1 < m.length + 1 + 1 + 1 := by omega
  have nw : m.length + 1 ≠ m.length := by omega
  have gle : m.length ≤ m.length := Nat.le_refl _
  simp only [Dynamics.forwardMem, Mem.alloc, Mem.read_append_lt, Mem.read_concat_eq,
    Mem.read_writeAt_ne, Mem.read_writeAt_eq, Mem.length_writeAt, List.length_append,
    List.length_cons, List.length_nil, List.length_set, hs, ha, hs1, hs2, hs3, ha1, ha2, ha3,
    ns, na, g1, g2, g3, w1, d1, nw, gle, Mem.read_append_right, Nat.sub_self,
    Mem.read_cons_zero, ne_eq, not_false_eq_true]
  simp [Dynamics.forward, Dynamics.updatedState, matVec, addList, step_mat, List.replicate]

/- ## General helper lemmas -/

theorem exists_five_of_length (s : List ℚ) (h : s.length = 5) :
    ∃ a b c d e, s = [a, b, c, d, e] := by
  rcases s with _ | ⟨a, _ | ⟨b, _ | ⟨c, _ | ⟨d, _ | ⟨e, _ | ⟨f, t⟩⟩⟩⟩⟩⟩
  · simp at h
  · simp at h
  · simp at h
  · simp at h
  · simp at h
  · exact ⟨a, b, c, d, e, rfl⟩
  · simp at h

theorem Dynamics.forward_length (sin cos : ℚ → ℚ) (s act : List ℚ) :
    (Dynamics.forward sin cos s act).length = 5 := by
  simp [Dynamics.forward, matVec, step_mat]

theorem freeStep_length (s : List ℚ) : (freeStep s).length = 5 := by
  simp [freeStep, matVec, step_mat]

theorem forward_zero_eq_freeStep (sin cos : ℚ → ℚ) (s : List ℚ) (hs : s.length = 5) :
    Dynamics.forward sin cos s (zeroController s) = freeStep s := by
  obtain ⟨a, b, c, d, e, rfl⟩ := exists_five_of_length s hs
  simp [Dynamics.forward, Dynamics.updatedState, freeStep, zeroController, matVec,
    addList, step_mat, List.getD]

theorem rollout_zero_states (sin cos : ℚ → ℚ) :
    ∀ (n : ℕ) (s : List ℚ), s.length = 5 →
      (rolloutLoop sin cos zeroController n s).2.1 = freeTraj n s := by
  intro n
  induction n with
  | zero => intro s _; rfl
  | succ k ih =>
    intro s hs
    simp only [rolloutLoop, freeTraj]
    rw [forward_zero_eq_freeStep sin cos s hs]
    exact congrArg (freeStep s :: ·) (ih (freeStep s) (freeStep_length s))

theorem rolloutLoop_lengths (sin cos : ℚ → ℚ) (ctrl : List ℚ → List ℚ) :
    ∀ (n : ℕ) (s : List ℚ), (rolloutLoop sin cos ctrl n s).1.length = n ∧
      (rolloutLoop sin cos ctrl n s).2.1.length = n := by
  intro n
  induction n with
  | zero => intro s; exact ⟨rfl, rfl⟩
  | succ k ih => intro s; simp [rolloutLoop, (ih _).1, (ih _).2]

/- ## Claim theorems -/

/-- C1: the loss returned by Simulation.forward is the square of the first
component of the final state of the T-step loop plus the square of the
second component, and the loss function reads nothing but those two
components. -/
theorem simulation_loss_from_first_two_components (sim : Simulation) (sin cos : ℚ → ℚ)
    (ctrl : List ℚ → List ℚ) (state : List ℚ) :
    (Simulation.forward sim sin cos ctrl state).1
        = Simulation.error ((rolloutLoop sin cos ctrl T state).2.2) ∧
      ∀ (x vx : ℚ) (rest rest2 : List ℚ),
        Simulation.error (x :: vx :: rest) = x ^ 2 + vx ^ 2 ∧
        Simulation.error (x :: vx :: rest) = Simulation.error (x :: vx :: rest2) := by
  refine ⟨rfl, fun x vx rest rest2 => ⟨?_, ?_⟩⟩ <;> simp [Simulation.error]

/-- C2: evaluating the shape-checked dynamics step at exactly the tensors
the program constructs, the 1-D five-component initial state and a
single-component action, fails rather than returning a next state: the
state column read raises on a 1-D tensor. -/
theorem dynamics_forward_fails_on_constructed_inputs :
    TVal.len (TVal.vec Simulation.initialize_state) = 5 ∧
    Dynamics.forwardChecked (fun _ => 0) (fun _ => 1)
        (TVal.vec Simulation.initialize_state) (TVal.vec [1/2]) = none :=
  ⟨rfl, rfl⟩

/-- C3: the constructed controller has a single output channel, and the
shape-checked dynamics step fails on the single-component action it
emits, because the read of the second action column is out of bounds. -/
theorem controller_supplies_one_component_action :
    dim_output = 1 ∧
    Dynamics.forwardChecked (fun _ => 0) (fun _ => 1)
        (TVal.mat [[0, 0, 1, 0, 0]]) (TVal.mat [[1/2]]) = none :=
  ⟨rfl, rfl⟩

/-- C4 counterexample: one dynamics step with zero action does not leave
the heading unchanged: from the state with heading 1 the drag term moves
the heading. -/
theorem heading_changed_by_zero_action_cex :
    (Dynamics.forward (fun _ => 0) (fun _ => 1) [0, 0, 0, 0, 1] [0, 0]).getD 4 0 ≠ 1 := by
  norm_num [Dynamics.forward, Dynamics.updatedState, matVec, addList, step_mat,
    FRAME_TIME, drag, GRAVITY_ACCEL, BOOST_ACCEL]

/-- C4 amended: one dynamics step with zero action changes the heading
exactly by the drag term, new heading equals heading plus drag times
heading squared; in particular the heading is unchanged only when it is
zero. -/
theorem heading_zero_action_drag_update (sin cos : ℚ → ℚ) (s : List ℚ)
    (hs : s.length = 5) :
    (Dynamics.forward sin cos s [0, 0]).getD 4 0 = s.getD 4 0 + drag * s.getD 4 0 ^ 2 := by
  obtain ⟨a, b, c, d, e, rfl⟩ := exists_five_of_length s hs
  simp [Dynamics.forward, Dynamics.updatedState, matVec, addList, step_mat, List.getD]

theorem heading_zero_action_drag_update_witness :
    ([0, 0, 0, 0, 1] : List ℚ).length = 5 ∧
    (Dynamics.forward (fun _ => 0) (fun _ => 1) [0, 0, 0, 0, 1] [0, 0]).getD 4 0
      = ([0, 0, 0, 0, 1] : List ℚ).getD 4 0 + drag * ([0, 0, 0, 0, 1] : List ℚ).getD 4 0 ^ 2 :=
  ⟨rfl, heading_zero_action_drag_update (fun _ => 0) (fun _ => 1) [0, 0, 0, 0, 1] rfl⟩

/-- C5: the 20-step rollout from the fixed initial state with the
all-zero controller records exactly the trajectory obtained by iterating
the gravity plus uniform drag plus constant-matrix kinematics step twenty
times; over the rationals the match is exact. -/
theorem zero_controller_rollout_matches_free_dynamics (sin cos : ℚ → ℚ) (T' : ℕ) :
    ((Simulation.mk T').forward sin cos zeroController Simulation.initialize_state).2.2
      = freeTraj 20 Simulation.initialize_state :=
  rollout_zero_states sin cos T Simulation.initialize_state rfl

/-- C6: the drag coefficient is the fixed product of minus one half, the
drag coefficient 0.75, the air density 1.29 and the area 10.75, and the
intermediate state of every dynamics step adds drag times the squared
component to each of the five components on top of the non-drag part. -/
theorem drag_term_uniform_all_components (sin cos : ℚ → ℚ) (s act : List ℚ)
    (hs : s.length = 5) :
    drag = (-0.5) * 0.75 * 1.29 * 10.75 ∧
    ∀ i : Fin 5, (Dynamics.updatedState sin cos s act).getD i 0
      = (updatedStateNoDrag sin cos s act).getD i 0 + drag * s.getD i 0 ^ 2 := by
  refine ⟨rfl, ?_⟩
  obtain ⟨a, b, c, d, e, rfl⟩ := exists_five_of_length s hs
  intro i
  fin_cases i <;>
    simp [Dynamics.updatedState, updatedStateNoDrag, addList, List.getD]

theorem drag_term_uniform_all_components_witness :
    ([0, 0, 1, 0, 0] : List ℚ).length = 5 ∧
    (Dynamics.updatedState (fun _ => 0) (fun _ => 1) [0, 0, 1, 0, 0] [1/2, 1/3]).getD
        ((4 : Fin 5) : ℕ) 0
      = (updatedStateNoDrag (fun _ => 0) (fun _ => 1) [0, 0, 1, 0, 0] [1/2, 1/3]).getD
          ((4 : Fin 5) : ℕ) 0
        + drag * ([0, 0, 1, 0, 0] : List ℚ).getD ((4 : Fin 5) : ℕ) 0 ^ 2 :=
  ⟨rfl, (drag_term_uniform_all_components (fun _ => 0) (fun _ => 1) [0, 0, 1, 0, 0]
    [1/2, 1/3] rfl).2 4⟩

/-- C7: every component of the controller output lies in the closed unit
interval, because the final sigmoid maps into it. -/
theorem controller_output_bounded {dIn dHid dOut : ℕ} (layer1 : Linear dIn dHid)
    (layer2 : Linear dHid dOut) (state : Fin dIn → ℝ) (i : Fin dOut) :
    0 ≤ Controller.forward layer1 layer2 state i ∧
      Controller.forward layer1 layer2 state i ≤ 1 := by
  have key : ∀ x : ℝ, 0 ≤ sigmoid x ∧ sigmoid x ≤ 1 := by
    intro x
    have h1 : 0 < 1 + Real.exp (-x) := by positivity
    constructor
    · unfold sigmoid; positivity
    · unfold sigmoid
      rw [div_le_one h1]
      linarith [Real.exp_pos (-x)]
  exact key _

/-- C8: the dynamics step is deterministic and mutates neither input: the
state and action tensors are intact after a call, and a second call at
the same addresses returns the identical result value. -/
theorem dynamics_step_pure_no_mutation (sin cos : ℚ → ℚ) (m : Mem) (s a : ℕ)
    (hs : s < m.length) (ha : a < m.length) :
    ((Dynamics.forwardMem sin cos m s a).1).read s = m.read s ∧
    ((Dynamics.forwardMem sin cos m s a).1).read a = m.read a ∧
    ((Dynamics.forwardMem sin cos (Dynamics.forwardMem sin cos m s a).1 s a).1).read
        (Dynamics.forwardMem sin cos (Dynamics.forwardMem sin cos m s a).1 s a).2
      = ((Dynamics.forwardMem sin cos m s a).1).read (Dynamics.forwardMem sin cos m s a).2 := by
  have hs6 : s < ((Dynamics.forwardMem sin cos m s a).1).length := by
    rw [Dynamics.forwardMem_length]; omega
  have ha6 : a < ((Dynamics.forwardMem sin cos m s a).1).length := by
    rw [Dynamics.forwardMem_length]; omega
  refine ⟨Dynamics.forwardMem_frame sin cos m s a s hs,
    Dynamics.forwardMem_frame sin cos m s a a ha, ?_⟩
  rw [Dynamics.forwardMem_result sin cos _ s a hs6 ha6,
    Dynamics.forwardMem_result sin cos m s a hs ha,
    Dynamics.forwardMem_frame sin cos m s a s hs,
    Dynamics.forwardMem_frame sin cos m s a a ha]

theorem dynamics_step_pure_no_mutation_witness :
    ((0 : ℕ) < ([[0, 0, 1, 0, 0], [1/2, 1/2]] : Mem).length ∧
      (1 : ℕ) < ([[0, 0, 1, 0, 0], [1/2, 1/2]] : Mem).length) ∧
    (((Dynamics.forwardMem (fun _ => 0) (fun _ => 1) [[0, 0, 1, 0, 0], [1/2, 1/2]] 0 1).1).read 0
        = Mem.read [[0, 0, 1, 0, 0], [1/2, 1/2]] 0 ∧
      ((Dynamics.forwardMem (fun _ => 0) (fun _ => 1) [[0, 0, 1, 0, 0], [1/2, 1/2]] 0 1).1).read 1
        = Mem.read [[0, 0, 1, 0, 0], [1/2, 1/2]] 1 ∧
      ((Dynamics.forwardMem (fun _ => 0) (fun _ => 1)
            (Dynamics.forwardMem (fun _ => 0) (fun _ => 1) [[0, 0, 1, 0, 0], [1/2, 1/2]] 0 1).1
            0 1).1).read
          (Dynamics.forwardMem (fun _ => 0) (fun _ => 1)
            (Dynamics.forwardMem (fun _ => 0) (fun _ => 1) [[0, 0, 1, 0, 0], [1/2, 1/2]] 0 1).1
            0 1).2
        = ((Dynamics.forwardMem (fun _ => 0) (fun _ => 1) [[0, 0, 1, 0, 0], [1/2, 1/2]] 0 1).1).read
            (Dynamics.forwardMem (fun _ => 0) (fun _ => 1) [[0, 0, 1, 0, 0], [1/2, 1/2]] 0 1).2) :=
  ⟨⟨by decide, by decide⟩,
    dynamics_step_pure_no_mutation (fun _ => 0) (fun _ => 1) [[0, 0, 1, 0, 0], [1/2, 1/2]]
      0 1 (by decide) (by decide)⟩

/-- C9: the rollout loop runs the module-level constant T equal 20 times
and records twenty actions and twenty states whatever T value the
Simulation instance was constructed with, while visualize reads exactly
the instance T entries of the trajectory. -/
theorem rollout_uses_module_T (T' : ℕ) (sin cos : ℚ → ℚ) (ctrl : List ℚ → List ℚ)
    (state : List ℚ) (trajectory : List (List ℚ)) :
    T = 20 ∧
    ((Simulation.mk T').forward sin cos ctrl state).2.1.length = 20 ∧
    ((Simulation.mk T').forward sin cos ctrl state).2.2.length = 20 ∧
    (Optimize.visualize (Simulation.mk T') trajectory).length = T' := by
  refine ⟨rfl, ?_, ?_, by simp [Optimize.visualize]⟩
  · exact (rolloutLoop_lengths sin cos ctrl T state).1
  · exact (rolloutLoop_lengths sin cos ctrl T state).2

/-- C10: one optimizer step invokes the closure once more after the
abstract LBFGS update: the invocation list is the internal calls followed
by exactly one call at the updated parameters, and the returned loss and
stored trajectory are the fresh rollout at those updated parameters. -/
theorem optimize_step_final_closure_call {P : Type}
    (lbfgs : (P → ℚ × List (List ℚ) × List (List ℚ)) → P → P × List P)
    (sin cos : ℚ → ℚ) (ctrl : P → List ℚ → List ℚ) (sim : Simulation) (p : P) :
    (Optimize.step lbfgs sin cos ctrl sim p).1
        = sim.forward sin cos
            (ctrl (lbfgs (fun q => sim.forward sin cos (ctrl q) Simulation.initialize_state) p).1)
            Simulation.initialize_state ∧
      (Optimize.step lbfgs sin cos ctrl sim p).2.2
        = (lbfgs (fun q => sim.forward sin cos (ctrl q) Simulation.initialize_state) p).2
            ++ [(Optimize.step lbfgs sin cos ctrl sim p).2.1] ∧
      (Optimize.step lbfgs sin cos ctrl sim p).2.1
        = (lbfgs (fun q => sim.forward sin cos (ctrl q) Simulation.initialize_state) p).1 :=
  ⟨rfl, rfl, rfl⟩
